import Mathlib

/-!
# Verification of the Retell voice-bot front-end

Shallow embedding of the call/session lifecycle controller of the
`retell-ai-voice-bot-nextjs-shadcn` repository, and proofs about it.

The embedded code:
* the `VoiceBot` component's message-log handlers and wake-word orchestration
  (source file `part_004`): `onTranscriptUpdate`, `onResponseUpdate`,
  `onSentenceComplete`, `handleWakeWordDetected`, `startWakeWordDetection`,
  `stopWakeWordDetection`, `handleStartCall`, `handleEndCall`;
* the `useWakeWordDetection` hook (`part_004`): `recognition.onresult`,
  `recognition.onend`, `recognition.onerror`, `startDetection`,
  `stopDetection`, `setupRecognition`, `cleanup`;
* the guarded `useRetellClient` hook (`part_005`): `startCall`, `endCall`,
  `cleanupClient`, the `update` / `sentence_complete` event handlers
  (the latter two are textually identical in `src/hooks/use-retell-client.ts`).

Modelling conventions:
* Machine integers / JS numbers used as millisecond timestamps are `Nat`
  (clocks are monotone and non-negative in every run we reason about;
  JS `a - b < k` on timestamps agrees with truncated `Nat` subtraction for
  the guards embedded here — both treat a "negative" elapsed time as passing
  the `< k` test, see `endCall`).
* The backoff delay `Math.min(1000 * Math.pow(1.5, n), 10000)` is embedded
  over `ℚ`: every value the expression takes before the cap engages
  (`n ≤ 5`, i.e. `1000, 1500, 2250, 3375, 5062.5, 7593.75`) is exactly
  representable in binary64, and past the cap both the float and the
  rational computation return exactly `10000`, so the `ℚ` embedding is
  extensionally faithful to the JS float computation.
* `Message.id` (a random `uuidv4()`) and `Message.timestamp` (`new Date()`)
  are opaque values that no handler in the repository ever reads or
  compares; they are omitted from the embedded `Message`.
* Each JS callback / event-handler body runs to completion on the single
  browser thread; it is embedded as one atomic state transition.  Timer
  callbacks (`setTimeout`) and resumptions after `await` are separate
  transitions, triggered by their own events.
-/

/-- Wake word constant (`part_004`, line 38): `const WAKE_WORD = 'hey assistant'`. -/
def WAKE_WORD : String := "hey assistant"

/-- `part_005`, line 6: minimum call duration (ms) to prevent accidental endings. -/
def MIN_CALL_DURATION_MS : Nat := 10000

/-- `part_005`, line 7: inactivity timeout (ms). -/
def INACTIVITY_TIMEOUT_MS : Nat := 300000

/-- `part_005`, line 8: debounce time (ms) for client operations. -/
def DEBOUNCE_TIME_MS : Nat := 500

/-- The `type` field of a chat message (`part_004`, `Message` interface):
`'response' | 'transcription' | 'system'`. -/
inductive MessageType where
  | response
  | transcription
  | system
deriving DecidableEq

/-- A chat-log entry (`part_004`, `Message` interface).  The `id : string`
(random `uuidv4()`) and `timestamp : Date` fields are opaque — no handler
reads them — and are omitted (see the module docstring). -/
structure Message where
  type : MessageType
  role : Option String
  content : String
  isComplete : Bool
deriving DecidableEq

/-- `callStatus` field of `VoiceBotState`: `'idle' | 'ongoing' | 'ended' | 'error'`. -/
inductive CallStatus where
  | idle
  | ongoing
  | ended
  | error
deriving DecidableEq

/-- The `VoiceBotState` interface of `part_004`. -/
structure VoiceBotState where
  isCallActive : Bool
  isLoading : Bool
  error : Option String
  callStatus : CallStatus
  messages : List Message
  isListeningForWakeWord : Bool
  liveTranscript : String
  liveTranscriptRole : Option String
deriving DecidableEq

/-- The initial `useState` value of the `VoiceBot` component (`part_004`,
lines 1060–1069). -/
def initialVoiceBotState : VoiceBotState :=
  { isCallActive := false
    isLoading := false
    error := none
    callStatus := .idle
    messages := []
    isListeningForWakeWord := false
    liveTranscript := ""
    liveTranscriptRole := none }

/-- JS `Array.prototype.findIndex` (restricted to `Option Nat` instead of
`-1` for "not found"): index of the first element satisfying `p`. -/
def findIndexB (p : α → Bool) : List α → Option Nat
  | [] => none
  | a :: l => if p a then some 0 else (findIndexB p l).map (· + 1)

/-- JS in-place update `arr[i] = f (arr[i])` on a copied array: replace the
element at index `i` by its image under `f` (identity when out of range). -/
def modifyAt (f : α → α) : List α → Nat → List α
  | [], _ => []
  | a :: l, 0 => f a :: l
  | a :: l, n + 1 => a :: modifyAt f l n

/-- The predicate of `onTranscriptUpdate`'s search (`part_004`, line 1201):
`m.role === role && !m.isComplete`. -/
def isIncompleteForRole (role : String) (m : Message) : Bool :=
  m.role == some role && !m.isComplete

/-- The message appended by `onTranscriptUpdate` when no incomplete message
for the role exists (`part_004`, lines 1207–1214). -/
def newTranscriptionMessage (role content : String) : Message :=
  { type := .transcription, role := some role, content := content,
    isComplete := false }

/-- The message-list transformation of the `onTranscriptUpdate` callback
(`part_004`, lines 1197–1229): search the reversed list for the first
message with the same role that is not complete (`[...prev.messages]
.reverse().findIndex(...)`); if none, append a new incomplete transcription
message; otherwise replace the content of the message at
`prev.messages.length - 1 - lastIncompleteMessageIndex`. -/
def mergeFragment (role content : String) (messages : List Message) :
    List Message :=
  match findIndexB (isIncompleteForRole role) messages.reverse with
  | none => messages ++ [newTranscriptionMessage role content]
  | some revIdx =>
      modifyAt (fun m => { m with content := content }) messages
        (messages.length - 1 - revIdx)

/-- The `onTranscriptUpdate` callback passed to `useRetellClient`
(`part_004`, lines 1197–1229). -/
def onTranscriptUpdate (role content : String) (prev : VoiceBotState) :
    VoiceBotState :=
  { prev with messages := mergeFragment role content prev.messages }

/-- The `onResponseUpdate` callback (`part_004`, lines 1231–1243): append an
already-complete `response` message with role `'assistant'`. -/
def onResponseUpdate (content : String) (prev : VoiceBotState) :
    VoiceBotState :=
  { prev with
    messages := prev.messages ++
      [{ type := .response, role := some "assistant", content := content,
         isComplete := true }] }

/-- The message-list transformation of `onSentenceComplete` (`part_004`,
lines 1244–1259): `findIndex(m => !m.isComplete)`; if found, mark that
message (the oldest incomplete one) complete, else leave the list alone. -/
def completeOldest (messages : List Message) : List Message :=
  match findIndexB (fun m => !m.isComplete) messages with
  | none => messages
  | some i => modifyAt (fun m => { m with isComplete := true }) messages i

/-- The `onSentenceComplete` callback (`part_004`, lines 1244–1259). -/
def onSentenceComplete (prev : VoiceBotState) : VoiceBotState :=
  { prev with messages := completeOldest prev.messages }

/-- C1.  Starting from an empty message log in an active call, the fragment
sequence `("user","hi")`, `("user","hi there")`, then `sentenceComplete`,
then the response `"hello"` yields exactly two completed messages: the user
transcription `"hi there"` followed by the assistant response `"hello"`. -/
theorem merge_trace_two_completed_messages :
    (onResponseUpdate "hello"
      (onSentenceComplete
        (onTranscriptUpdate "user" "hi there"
          (onTranscriptUpdate "user" "hi"
            { initialVoiceBotState with
                isCallActive := true, callStatus := .ongoing })))).messages =
      [{ type := .transcription, role := some "user", content := "hi there",
         isComplete := true },
       { type := .response, role := some "assistant", content := "hello",
         isComplete := true }] := by
  decide

/-! ## List helper lemmas (for `findIndexB`, `modifyAt` and counting) -/

/-- Number of elements of `l` satisfying the Boolean predicate `p`. -/
def countB (p : α → Bool) : List α → Nat
  | [] => 0
  | a :: l => (if p a then 1 else 0) + countB p l

theorem countB_append (p : α → Bool) (l l' : List α) :
    countB p (l ++ l') = countB p l + countB p l' := by
  induction l with
  | nil => simp [countB]
  | cons a l ih => simp [countB, ih]; omega

theorem countB_eq_zero {p : α → Bool} {l : List α}
    (h : ∀ a ∈ l, p a = false) : countB p l = 0 := by
  induction l with
  | nil => rfl
  | cons a l ih =>
      simp [countB, h a (List.mem_cons_self a l),
        ih fun b hb => h b (List.mem_cons_of_mem _ hb)]

theorem countB_modifyAt_congr {p : α → Bool} {f : α → α}
    (hf : ∀ a, p (f a) = p a) (l : List α) (i : Nat) :
    countB p (modifyAt f l i) = countB p l := by
  induction l generalizing i with
  | nil => rfl
  | cons a l ih =>
      cases i with
      | zero => simp [modifyAt, countB, hf]
      | succ n => simp [modifyAt, countB, ih]

theorem countB_modifyAt_le {p : α → Bool} {f : α → α}
    (hf : ∀ a, p (f a) = false) (l : List α) (i : Nat) :
    countB p (modifyAt f l i) ≤ countB p l := by
  induction l generalizing i with
  | nil => exact Nat.le_refl _
  | cons a l ih =>
      cases i with
      | zero =>
          have h1 : countB p (f a :: l) = countB p l := by simp [countB, hf]
          have h2 : countB p l ≤ countB p (a :: l) := by
            simp only [countB]
            exact Nat.le_add_left _ _
          simpa [modifyAt, h1] using h2
      | succ n =>
          simp only [modifyAt, countB]
          have := ih n
          omega

theorem findIndexB_eq_none {p : α → Bool} {l : List α} :
    findIndexB p l = none ↔ ∀ a ∈ l, p a = false := by
  induction l with
  | nil => simp [findIndexB]
  | cons a l ih =>
      by_cases h : p a <;> simp [findIndexB, h, ih, Option.map_eq_none']

theorem findIndexB_eq_some {p : α → Bool} {l : List α} {i : Nat}
    (h : findIndexB p l = some i) :
    ∃ a, l[i]? = some a ∧ p a = true ∧
      ∀ j, j < i → ∀ b, l[j]? = some b → p b = false := by
  induction l generalizing i with
  | nil => simp [findIndexB] at h
  | cons a l ih =>
      by_cases ha : p a
      · simp [findIndexB, ha] at h
        subst h
        exact ⟨a, by simp, ha, fun j hj => absurd hj (by omega)⟩
      · simp [findIndexB, ha] at h
        obtain ⟨i', hi', rfl⟩ := h
        obtain ⟨b, hb, hpb, hmin⟩ := ih hi'
        refine ⟨b, by simpa using hb, hpb, ?_⟩
        intro j hj c hc
        cases j with
        | zero =>
            simp at hc
            subst hc
            simpa using ha
        | succ k => exact hmin k (by omega) c (by simpa using hc)

theorem findIndexB_eq_some_of {p : α → Bool} {l : List α} {i : Nat} {a : α}
    (ha : l[i]? = some a) (hpa : p a = true)
    (hmin : ∀ j, j < i → ∀ b, l[j]? = some b → p b = false) :
    findIndexB p l = some i := by
  induction l generalizing i with
  | nil => simp at ha
  | cons x l ih =>
      cases i with
      | zero =>
          simp at ha
          subst ha
          simp [findIndexB, hpa]
      | succ n =>
          have hx : p x = false := hmin 0 (Nat.succ_pos n) x (by simp)
          simp only [findIndexB, hx, Bool.false_eq_true, if_false]
          rw [ih (by simpa using ha)
            fun j hj b hb => hmin (j + 1) (by omega) b (by simpa using hb)]
          rfl

theorem modifyAt_eq_set {f : α → α} {l : List α} {i : Nat} {a : α}
    (h : l[i]? = some a) : modifyAt f l i = l.set i (f a) := by
  induction l generalizing i with
  | nil => simp at h
  | cons x l ih =>
      cases i with
      | zero =>
          simp at h
          subst h
          simp [modifyAt]
      | succ n =>
          simp only [modifyAt, List.set_cons_succ]
          rw [ih (by simpa using h)]

theorem mem_modifyAt {f : α → α} {l : List α} {i : Nat} {b : α}
    (h : b ∈ modifyAt f l i) : b ∈ l ∨ ∃ a, a ∈ l ∧ b = f a := by
  induction l generalizing i with
  | nil => simp [modifyAt] at h
  | cons x l ih =>
      cases i with
      | zero =>
          simp only [modifyAt, List.mem_cons] at h
          rcases h with rfl | h
          · exact Or.inr ⟨x, List.mem_cons_self x l, rfl⟩
          · exact Or.inl (List.mem_cons_of_mem _ h)
      | succ n =>
          simp only [modifyAt, List.mem_cons] at h
          rcases h with rfl | h
          · exact Or.inl (List.mem_cons_self b l)
          · rcases ih h with h' | ⟨a, ha, rfl⟩
            · exact Or.inl (List.mem_cons_of_mem _ h')
            · exact Or.inr ⟨a, List.mem_cons_of_mem _ ha, rfl⟩

/-! ## The realtime `update` event handler (`part_005`, lines 128–157;
textually identical in `src/hooks/use-retell-client.ts`, lines 48–76) -/

/-- JS `String.prototype.toLowerCase()` over the character list (ASCII
case-folding; the only comparisons in the repository involve ASCII strings
such as `'agent'` and the wake word).  Defined structurally so that the
kernel can evaluate it on concrete inputs. -/
def jsToLower (s : String) : String :=
  ⟨s.data.map Char.toLower⟩

/-- JS `String.prototype.trim()`: strip leading and trailing whitespace.
Defined structurally over the character list so that the kernel can
evaluate it on concrete inputs. -/
def jsTrim (s : String) : String :=
  ⟨((s.data.dropWhile Char.isWhitespace).reverse.dropWhile
      Char.isWhitespace).reverse⟩

/-- Auxiliary for `strIncludes`: does the second char list occur at the
start of the first? -/
def startsWithChars : List Char → List Char → Bool
  | _, [] => true
  | [], _ :: _ => false
  | c :: cs, d :: ds => c == d && startsWithChars cs ds

/-- Auxiliary for `strIncludes`: does the second char list occur anywhere
in the first? -/
def containsChars : List Char → List Char → Bool
  | [], needle => needle.isEmpty
  | c :: cs, needle =>
      startsWithChars (c :: cs) needle || containsChars cs needle

/-- JS `String.prototype.includes(needle)`. -/
def strIncludes (hay needle : String) : Bool :=
  containsChars hay.data needle.data

/-- One element of the inbound `update.transcript` array: `{role, content}`. -/
structure TranscriptElem where
  role : String
  content : String
deriving DecidableEq

/-- The inbound `update.response` payload:
`string | { content?: string; text?: string }`. -/
inductive ResponseValue where
  | str (s : String)
  | obj (content : Option String) (text : Option String)
deriving DecidableEq

/-- The inbound `update` event shape.  The declared `llmResponse?` field is
never read by the handler and is omitted. -/
structure UpdateEvent where
  transcript : Option (List TranscriptElem)
  response : Option ResponseValue
deriving DecidableEq

/-- JS truthiness of `update.response` in `if (update.response)`: an empty
string is falsy, an object is always truthy. -/
def responseTruthy : ResponseValue → Bool
  | .str s => !(s == "")
  | .obj _ _ => true

/-- `JSON.stringify` applied to the `{content?, text?}` response object
(the final fallback of the `||` chain).  External library function, embedded
as a plain JSON rendering (no claim depends on its exact output). -/
def jsonStringifyResp (c t : Option String) : String :=
  let fields :=
    (match c with
     | some s => ["\"content\":\"" ++ s ++ "\""]
     | none => []) ++
    (match t with
     | some s => ["\"text\":\"" ++ s ++ "\""]
     | none => [])
  "\x7b" ++ String.intercalate "," fields ++ "\x7d"

/-- `typeof update.response === 'object' ? update.response.content ||
update.response.text || JSON.stringify(update.response) : update.response`
with JS `||` falsiness: an absent field and an empty string both fall
through. -/
def responseContent : ResponseValue → String
  | .str s => s
  | .obj c t =>
      let cv := c.getD ""
      if cv != "" then cv
      else
        let tv := t.getD ""
        if tv != "" then tv else jsonStringifyResp c t

/-- Role normalization applied to the latest transcript element
(`part_005`, line 141 / `use-retell-client.ts`, line 60):
`latestTranscript.role.toLowerCase() === 'agent' ? 'assistant' : 'user'`
(`toLowerCase` embedded as `jsToLower`). -/
def normalizeRole (role : String) : String :=
  if jsToLower role == "agent" then "assistant" else "user"

/-- The response half of the `update` handler (`part_005`, lines 149–156):
`if (update.response) { ... onResponseUpdate(responseContent) }`. -/
def handleResponsePart (u : UpdateEvent) (s : VoiceBotState) : VoiceBotState :=
  match u.response with
  | some r => if responseTruthy r then onResponseUpdate (responseContent r) s
              else s
  | none => s

/-- The whole `update` handler (`part_005`, lines 128–157), composed with
the `VoiceBot` callbacks it invokes.  The two early `return`s (missing
latest transcript element, empty trimmed content) abort the entire handler,
skipping the response half as well. -/
def handleUpdate (u : UpdateEvent) (s : VoiceBotState) : VoiceBotState :=
  match u.transcript with
  | some ts =>
      match ts.getLast? with
      | none => s
      | some latest =>
          let role := normalizeRole latest.role
          let content := jsTrim latest.content
          if content == "" then s
          else handleResponsePart u (onTranscriptUpdate role content s)
  | none => handleResponsePart u s

/-- A complete `system` message as appended by `handleWakeWordDetected` and
`startWakeWordDetection` (`part_004`, lines 1087–1093 and 1127–1133). -/
def appendSystemMessage (content : String) (s : VoiceBotState) :
    VoiceBotState :=
  { s with messages := s.messages ++
      [{ type := .system, role := none, content := content,
         isComplete := true }] }

/-- The events that can touch the message log during a call: an inbound
`update` event, an inbound `sentence_complete` event, or one of the
component's own `system` notes. -/
inductive LogEvent where
  | update (u : UpdateEvent)
  | sentenceComplete
  | systemNote (content : String)

/-- Apply one log event to the component state. -/
def applyLogEvent : LogEvent → VoiceBotState → VoiceBotState
  | .update u, s => handleUpdate u s
  | .sentenceComplete, s => onSentenceComplete s
  | .systemNote c, s => appendSystemMessage c s

/-- Apply a sequence of log events, oldest first. -/
def applyLogEvents (evs : List LogEvent) (s : VoiceBotState) : VoiceBotState :=
  evs.foldl (fun s e => applyLogEvent e s) s

/-! ## Preservation lemmas for the per-role incomplete-message invariant -/

theorem mergeFragment_none {role content : String} {msgs : List Message}
    (h : findIndexB (isIncompleteForRole role) msgs.reverse = none) :
    mergeFragment role content msgs =
      msgs ++ [newTranscriptionMessage role content] := by
  unfold mergeFragment
  rw [h]

theorem mergeFragment_some {role content : String} {msgs : List Message}
    {revIdx : Nat}
    (h : findIndexB (isIncompleteForRole role) msgs.reverse = some revIdx) :
    mergeFragment role content msgs =
      modifyAt (fun m => { m with content := content }) msgs
        (msgs.length - 1 - revIdx) := by
  unfold mergeFragment
  rw [h]

theorem completeOldest_none {msgs : List Message}
    (h : findIndexB (fun m => !m.isComplete) msgs = none) :
    completeOldest msgs = msgs := by
  unfold completeOldest
  rw [h]

theorem completeOldest_some {msgs : List Message} {i : Nat}
    (h : findIndexB (fun m => !m.isComplete) msgs = some i) :
    completeOldest msgs =
      modifyAt (fun m => { m with isComplete := true }) msgs i := by
  unfold completeOldest
  rw [h]

theorem countB_incomplete_append_complete (r : String) (msgs : List Message)
    {m : Message} (hm : m.isComplete = true) :
    countB (isIncompleteForRole r) (msgs ++ [m]) =
      countB (isIncompleteForRole r) msgs := by
  rw [countB_append]
  have h : isIncompleteForRole r m = false := by
    simp [isIncompleteForRole, hm]
  simp [countB, h]

theorem countB_incomplete_mergeFragment (role content r : String)
    (msgs : List Message) (h : countB (isIncompleteForRole r) msgs ≤ 1) :
    countB (isIncompleteForRole r) (mergeFragment role content msgs) ≤ 1 := by
  cases hfi : findIndexB (isIncompleteForRole role) msgs.reverse with
  | none =>
      have hall : ∀ m ∈ msgs, isIncompleteForRole role m = false := fun m hm =>
        findIndexB_eq_none.mp hfi m (List.mem_reverse.mpr hm)
      rw [mergeFragment_none hfi, countB_append]
      by_cases hr : r = role
      · subst hr
        have h0 : countB (isIncompleteForRole r) msgs = 0 := countB_eq_zero hall
        have h1 : countB (isIncompleteForRole r)
            [newTranscriptionMessage r content] ≤ 1 := by
          simp only [countB]
          split <;> omega
        omega
      · have hne : (some role == some r) = false :=
          beq_eq_false_iff_ne.mpr fun hh => hr (Option.some.inj hh).symm
        have h1 : countB (isIncompleteForRole r)
            [newTranscriptionMessage role content] = 0 := by
          simp [countB, isIncompleteForRole, newTranscriptionMessage, hne]
        omega
  | some revIdx =>
      rw [mergeFragment_some hfi,
        countB_modifyAt_congr
          (fun m => (rfl :
            isIncompleteForRole r { m with content := content } =
              isIncompleteForRole r m))]
      exact h

theorem countB_incomplete_completeOldest (r : String) (msgs : List Message)
    (h : countB (isIncompleteForRole r) msgs ≤ 1) :
    countB (isIncompleteForRole r) (completeOldest msgs) ≤ 1 := by
  cases hfi : findIndexB (fun m => !m.isComplete) msgs with
  | none =>
      rw [completeOldest_none hfi]
      exact h
  | some i =>
      rw [completeOldest_some hfi]
      refine Nat.le_trans (countB_modifyAt_le (fun m => ?_) msgs i) h
      simp [isIncompleteForRole]

/-- The per-role invariant: at most one incomplete message for role `r`. -/
def atMostOneIncompletePer (r : String) (msgs : List Message) : Prop :=
  countB (isIncompleteForRole r) msgs ≤ 1

theorem applyLogEvent_preserves_incomplete_inv (e : LogEvent)
    (s : VoiceBotState) (h : ∀ r, atMostOneIncompletePer r s.messages) :
    ∀ r, atMostOneIncompletePer r (applyLogEvent e s).messages := by
  have hresp : ∀ (u : UpdateEvent) (s' : VoiceBotState),
      (∀ r, atMostOneIncompletePer r s'.messages) →
      ∀ r, atMostOneIncompletePer r (handleResponsePart u s').messages := by
    intro u s' h' r
    unfold handleResponsePart
    cases u.response with
    | none => exact h' r
    | some v =>
        by_cases hv : responseTruthy v = true
        · simp only [hv, if_true, onResponseUpdate]
          unfold atMostOneIncompletePer
          rw [countB_incomplete_append_complete r s'.messages rfl]
          exact h' r
        · simp only [Bool.not_eq_true] at hv
          simp only [hv, Bool.false_eq_true, if_false]
          exact h' r
  cases e with
  | update u =>
      show ∀ r, atMostOneIncompletePer r (handleUpdate u s).messages
      cases hts : u.transcript with
      | none =>
          have heq : handleUpdate u s = handleResponsePart u s := by
            unfold handleUpdate
            simp only [hts]
          rw [heq]
          exact hresp u s h
      | some ts =>
          cases hlast : ts.getLast? with
          | none =>
              have heq : handleUpdate u s = s := by
                unfold handleUpdate
                simp only [hts, hlast]
              rw [heq]
              exact h
          | some latest =>
              by_cases hc : (jsTrim latest.content == "") = true
              · have heq : handleUpdate u s = s := by
                  unfold handleUpdate
                  simp only [hts, hlast]
                  simp [hc]
                rw [heq]
                exact h
              · have heq : handleUpdate u s = handleResponsePart u
                    (onTranscriptUpdate (normalizeRole latest.role)
                      (jsTrim latest.content) s) := by
                  unfold handleUpdate
                  simp only [hts, hlast]
                  simp [hc]
                rw [heq]
                refine hresp u _ (fun r => ?_)
                exact countB_incomplete_mergeFragment _ _ r s.messages (h r)
  | sentenceComplete =>
      intro r
      exact countB_incomplete_completeOldest r s.messages (h r)
  | systemNote c =>
      intro r
      show atMostOneIncompletePer r (appendSystemMessage c s).messages
      unfold atMostOneIncompletePer appendSystemMessage
      rw [countB_incomplete_append_complete r s.messages rfl]
      exact h r

theorem applyLogEvents_preserves_incomplete_inv (evs : List LogEvent) :
    ∀ s : VoiceBotState, (∀ r, atMostOneIncompletePer r s.messages) →
      ∀ r, atMostOneIncompletePer r (applyLogEvents evs s).messages := by
  induction evs with
  | nil => exact fun s h => h
  | cons e evs ih =>
      intro s h
      exact ih _ (applyLogEvent_preserves_incomplete_inv e s h)

/-- C5.  (1) In every message log reachable from the initial state by
`update` / `sentence_complete` / system-note events, at most one incomplete
message per speaker role exists.  (2) A transcript fragment for a role with
no incomplete message of that role appends a new incomplete message.
(3) A fragment for a role that has an incomplete message replaces the
content of the last such message (found by searching the reversed list). -/
theorem transcription_incomplete_invariant :
    (∀ (evs : List LogEvent) (r : String),
        countB (isIncompleteForRole r)
          (applyLogEvents evs initialVoiceBotState).messages ≤ 1)
  ∧ (∀ (role content : String) (msgs : List Message),
        (∀ m ∈ msgs, isIncompleteForRole role m = false) →
        mergeFragment role content msgs =
          msgs ++ [newTranscriptionMessage role content])
  ∧ (∀ (role content : String) (msgs : List Message) (revIdx : Nat),
        findIndexB (isIncompleteForRole role) msgs.reverse = some revIdx →
        mergeFragment role content msgs =
          modifyAt (fun m => { m with content := content }) msgs
            (msgs.length - 1 - revIdx)) := by
  refine ⟨?_, ?_, ?_⟩
  · intro evs r
    exact applyLogEvents_preserves_incomplete_inv evs initialVoiceBotState
      (fun r' => Nat.zero_le 1) r
  · intro role content msgs hall
    exact mergeFragment_none
      (findIndexB_eq_none.mpr fun m hm => hall m (List.mem_reverse.mp hm))
  · intro role content msgs revIdx h
    exact mergeFragment_some h

/-- Witness for C5: a fragment for a role with no incomplete message appends
a fresh incomplete message, evaluated on the empty log. -/
theorem transcription_incomplete_invariant_witness :
    mergeFragment "user" "hi" [] = [newTranscriptionMessage "user" "hi"] :=
  transcription_incomplete_invariant.2.1 "user" "hi" []
    (fun m hm => absurd hm (List.not_mem_nil m))

/-- C6.  `onSentenceComplete` is a no-op on a log with no incomplete message,
and otherwise marks exactly the oldest (least-index) incomplete message as
complete — regardless of its role — leaving every other message and every
other state field unchanged. -/
theorem sentence_complete_marks_oldest :
    (∀ s : VoiceBotState, (∀ m ∈ s.messages, m.isComplete = true) →
        onSentenceComplete s = s)
  ∧ (∀ (s : VoiceBotState) (i : Nat) (m : Message),
        s.messages[i]? = some m → m.isComplete = false →
        (∀ j, j < i → ∀ m', s.messages[j]? = some m' →
          m'.isComplete = true) →
        onSentenceComplete s =
          { s with messages :=
              s.messages.set i { m with isComplete := true } }) := by
  constructor
  · intro s hall
    have hfi : findIndexB (fun m => !m.isComplete) s.messages = none :=
      findIndexB_eq_none.mpr fun m hm => by simp [hall m hm]
    simp [onSentenceComplete, completeOldest_none hfi]
  · intro s i m hget hinc hmin
    have hfi : findIndexB (fun m => !m.isComplete) s.messages = some i :=
      findIndexB_eq_some_of hget (by simp [hinc])
        (fun j hj b hb => by simp [hmin j hj b hb])
    simp only [onSentenceComplete, completeOldest_some hfi,
      modifyAt_eq_set hget]

/-- Witness for C6: on a log whose only message is incomplete,
`onSentenceComplete` marks it complete. -/
theorem sentence_complete_marks_oldest_witness :
    onSentenceComplete
        { initialVoiceBotState with
            messages := [newTranscriptionMessage "user" "hi"] } =
      { initialVoiceBotState with
          messages := [{ newTranscriptionMessage "user" "hi" with
            isComplete := true }] } :=
  (sentence_complete_marks_oldest.2
    { initialVoiceBotState with
        messages := [newTranscriptionMessage "user" "hi"] }
    0 (newTranscriptionMessage "user" "hi") (by simp) rfl
    (fun j hj => absurd hj (Nat.not_lt_zero j))).trans (by decide)

/-- C9.  An `update` event whose latest transcript element trims to the
empty string makes the handler return before `onTranscriptUpdate`, leaving
the state (in particular the message log) completely unchanged — the early
`return` also skips the response half of the handler. -/
theorem empty_fragment_noop (u : UpdateEvent) (s : VoiceBotState)
    (ts : List TranscriptElem) (latest : TranscriptElem)
    (hts : u.transcript = some ts) (hlast : ts.getLast? = some latest)
    (hc : jsTrim latest.content = "") : handleUpdate u s = s := by
  unfold handleUpdate
  simp only [hts, hlast]
  simp [hc]

/-- Witness for C9: a whitespace-only fragment (with a response payload also
present) leaves the initial state unchanged. -/
theorem empty_fragment_noop_witness :
    handleUpdate
        { transcript := some [{ role := "user", content := "   " }],
          response := some (.str "ignored") }
        initialVoiceBotState = initialVoiceBotState :=
  empty_fragment_noop _ _ _ _ rfl rfl (by decide)

/-! ## Role normalization and the transcription-role invariant (C10) -/

/-- Every transcription message in the log carries role `'user'` or
`'assistant'`. -/
def transcriptionRolesOk (msgs : List Message) : Prop :=
  ∀ m ∈ msgs, m.type = .transcription →
    m.role = some "user" ∨ m.role = some "assistant"

theorem normalizeRole_user_or_assistant (r : String) :
    normalizeRole r = "user" ∨ normalizeRole r = "assistant" := by
  unfold normalizeRole
  split
  · exact Or.inr rfl
  · exact Or.inl rfl

/-- Case analysis of the `update` handler: it leaves the state unchanged,
runs only the response half, or merges a normalized fragment and then runs
the response half. -/
theorem handleUpdate_cases (u : UpdateEvent) (s : VoiceBotState) :
    handleUpdate u s = s ∨ handleUpdate u s = handleResponsePart u s ∨
      ∃ lr c, handleUpdate u s =
        handleResponsePart u (onTranscriptUpdate (normalizeRole lr) c s) := by
  cases hts : u.transcript with
  | none =>
      refine Or.inr (Or.inl ?_)
      unfold handleUpdate
      simp only [hts]
  | some ts =>
      cases hlast : ts.getLast? with
      | none =>
          refine Or.inl ?_
          unfold handleUpdate
          simp only [hts, hlast]
      | some latest =>
          by_cases hc : (jsTrim latest.content == "") = true
          · refine Or.inl ?_
            unfold handleUpdate
            simp only [hts, hlast]
            simp [hc]
          · refine Or.inr (Or.inr ⟨latest.role, jsTrim latest.content, ?_⟩)
            unfold handleUpdate
            simp only [hts, hlast]
            simp [hc]

theorem rolesOk_append_nontranscription {msgs : List Message} {m : Message}
    (hm : ¬ m.type = MessageType.transcription)
    (h : transcriptionRolesOk msgs) :
    transcriptionRolesOk (msgs ++ [m]) := by
  intro m' hm' ht
  rcases List.mem_append.mp hm' with h' | h'
  · exact h m' h' ht
  · simp at h'
    subst h'
    exact absurd ht hm

theorem rolesOk_mergeFragment (role content : String) (msgs : List Message)
    (hrole : role = "user" ∨ role = "assistant")
    (h : transcriptionRolesOk msgs) :
    transcriptionRolesOk (mergeFragment role content msgs) := by
  cases hfi : findIndexB (isIncompleteForRole role) msgs.reverse with
  | none =>
      rw [mergeFragment_none hfi]
      intro m hm ht
      rcases List.mem_append.mp hm with h' | h'
      · exact h m h' ht
      · simp at h'
        subst h'
        rcases hrole with rfl | rfl
        · exact Or.inl rfl
        · exact Or.inr rfl
  | some revIdx =>
      rw [mergeFragment_some hfi]
      intro m hm ht
      rcases mem_modifyAt hm with h' | ⟨a, ha, rfl⟩
      · exact h m h' ht
      · exact h a ha ht

theorem rolesOk_completeOldest (msgs : List Message)
    (h : transcriptionRolesOk msgs) :
    transcriptionRolesOk (completeOldest msgs) := by
  cases hfi : findIndexB (fun m => !m.isComplete) msgs with
  | none =>
      rw [completeOldest_none hfi]
      exact h
  | some i =>
      rw [completeOldest_some hfi]
      intro m hm ht
      rcases mem_modifyAt hm with h' | ⟨a, ha, rfl⟩
      · exact h m h' ht
      · exact h a ha ht

theorem rolesOk_handleResponsePart (u : UpdateEvent) (s : VoiceBotState)
    (h : transcriptionRolesOk s.messages) :
    transcriptionRolesOk (handleResponsePart u s).messages := by
  unfold handleResponsePart
  cases u.response with
  | none => exact h
  | some v =>
      by_cases hv : responseTruthy v = true
      · simp only [hv, if_true, onResponseUpdate]
        exact rolesOk_append_nontranscription (by simp) h
      · simp only [Bool.not_eq_true] at hv
        simp only [hv, Bool.false_eq_true, if_false]
        exact h

theorem rolesOk_applyLogEvent (e : LogEvent) (s : VoiceBotState)
    (h : transcriptionRolesOk s.messages) :
    transcriptionRolesOk (applyLogEvent e s).messages := by
  cases e with
  | update u =>
      show transcriptionRolesOk (handleUpdate u s).messages
      rcases handleUpdate_cases u s with heq | heq | ⟨lr, c, heq⟩ <;> rw [heq]
      · exact h
      · exact rolesOk_handleResponsePart u s h
      · exact rolesOk_handleResponsePart u _
          (rolesOk_mergeFragment (normalizeRole lr) c s.messages
            (normalizeRole_user_or_assistant lr) h)
  | sentenceComplete => exact rolesOk_completeOldest s.messages h
  | systemNote c =>
      show transcriptionRolesOk (appendSystemMessage c s).messages
      exact rolesOk_append_nontranscription (by simp) h

theorem rolesOk_applyLogEvents (evs : List LogEvent) :
    ∀ s : VoiceBotState, transcriptionRolesOk s.messages →
      transcriptionRolesOk (applyLogEvents evs s).messages := by
  induction evs with
  | nil => exact fun s h => h
  | cons e evs ih => exact fun s h => ih _ (rolesOk_applyLogEvent e s h)

/-- C10.  The inbound speaker role is normalized before it reaches the log:
a role that case-insensitively equals `'agent'` becomes `'assistant'`, any
other role becomes `'user'`; consequently every transcription message in
every reachable log has role `'user'` or `'assistant'`. -/
theorem role_normalized_user_or_assistant :
    (∀ role : String, jsToLower role = "agent" →
        normalizeRole role = "assistant")
  ∧ (∀ role : String, ¬ jsToLower role = "agent" →
        normalizeRole role = "user")
  ∧ (∀ (evs : List LogEvent) (m : Message),
        m ∈ (applyLogEvents evs initialVoiceBotState).messages →
        m.type = .transcription →
        m.role = some "user" ∨ m.role = some "assistant") := by
  refine ⟨?_, ?_, ?_⟩
  · intro role h
    simp [normalizeRole, h]
  · intro role h
    have hb : (jsToLower role == "agent") = false := beq_eq_false_iff_ne.mpr h
    simp [normalizeRole, hb]
  · intro evs
    exact rolesOk_applyLogEvents evs initialVoiceBotState
      (fun m hm => absurd hm (List.not_mem_nil m))

/-- Witness for C10: `'AGENT'` maps to `'assistant'`, `'customer'` maps to
`'user'`. -/
theorem role_normalized_user_or_assistant_witness :
    normalizeRole "AGENT" = "assistant" ∧ normalizeRole "customer" = "user" :=
  ⟨role_normalized_user_or_assistant.1 "AGENT" (by decide),
   role_normalized_user_or_assistant.2.1 "customer" (by decide)⟩

/-! ## The `useWakeWordDetection` hook (`part_004`, lines 840–1054) -/

/-- The mutable refs of the `useWakeWordDetection` hook.
`hasRecognition` models `recognitionRef.current !== null`; `restartDelay`
models `restartTimerRef` as the delay of the pending auto-restart timer
(`none` when no timer is pending); `retryScheduled` models the pending
1-second setup-retry timer of `startDetection`'s catch block. -/
structure WakeDetectionState where
  hasRecognition : Bool
  isRecognitionActive : Bool
  wakeWordDetected : Bool
  lastErrorTime : Nat
  setupAttempt : Nat
  restartDelay : Option ℚ
  retryScheduled : Bool
deriving DecidableEq

/-- Initial values of the hook's refs (`part_004`, lines 852–857). -/
def initialWakeDetectionState : WakeDetectionState :=
  { hasRecognition := false
    isRecognitionActive := false
    wakeWordDetected := false
    lastErrorTime := 0
    setupAttempt := 0
    restartDelay := none
    retryScheduled := false }

/-- The backoff delay of `recognition.onend` (`part_004`, line 938):
`Math.min(1000 * Math.pow(1.5, setupAttemptRef.current), 10000)`, embedded
over `ℚ` (see the module docstring for why this is exact). -/
def backoffDelay (n : Nat) : ℚ :=
  min (1000 * (3 / 2 : ℚ) ^ n) 10000

/-- The `recognition.onerror` handler (`part_004`, lines 949–966).
`errorType` is `event.error`, `now` is `Date.now()`.  Returns the new ref
state and the error surfaced through the `onError` callback (`none` when
nothing is reported).  `lastErrorTime` records the last error that passed
the rate-limit gate (the code updates it before the `no-speech` check). -/
def recognitionOnError (errorType : String) (now : Nat)
    (s : WakeDetectionState) : WakeDetectionState × Option String :=
  let s1 := { s with isRecognitionActive := false }
  if errorType ≠ "aborted" ∧ now - s1.lastErrorTime > 5000 then
    let s2 := { s1 with lastErrorTime := now }
    if errorType ≠ "no-speech" then (s2, some errorType) else (s2, none)
  else (s1, none)

/-- The `recognition.onend` handler (`part_004`, lines 932–946).
`isActive` is the hook's `isActive` prop as captured by the closure.  When
no wake word was detected and the hook should still be active, an
auto-restart is scheduled after the exponential-backoff delay.  (The
scheduled callback re-checks the flags when it fires; that firing is a
separate transition.) -/
def recognitionOnEnd (isActive : Bool) (s : WakeDetectionState) :
    WakeDetectionState :=
  let s1 := { s with isRecognitionActive := false }
  if !s1.wakeWordDetected && isActive then
    { s1 with restartDelay := some (backoffDelay s1.setupAttempt) }
  else s1

/-- The hook's `cleanup` (`part_004`, lines 872–886): clear the pending
restart timer, stop recognition, reset the flags and the attempt counter
(the recognition instance itself is not discarded). -/
def cleanupWake (s : WakeDetectionState) : WakeDetectionState :=
  { s with restartDelay := none, isRecognitionActive := false,
           wakeWordDetected := false, setupAttempt := 0 }

/-- `setupRecognition` (`part_004`, lines 889–974): run `cleanup`, then
create and configure a fresh recognition instance.  `setupOk` models the
browser-support check and the construction `try`/`catch`; the returned
`Bool` is the function's success result. -/
def setupRecognition (setupOk : Bool) (s : WakeDetectionState) :
    WakeDetectionState × Bool :=
  let s1 := cleanupWake s
  if setupOk then ({ s1 with hasRecognition := true }, true) else (s1, false)

/-- The `try { recognition.start() } catch` block of `startDetection`
(`part_004`, lines 993–1014).  `startOk` models whether `start()` throws.
On success the attempt counter is reset to zero; on failure it is bumped
and, below the limit of 5, a 1-second setup-retry is scheduled. -/
def startAttempt (startOk : Bool) (s : WakeDetectionState) :
    WakeDetectionState :=
  if s.hasRecognition && !s.isRecognitionActive then
    if startOk then { s with isRecognitionActive := true, setupAttempt := 0 }
    else
      let s1 := { s with isRecognitionActive := false,
                         setupAttempt := s.setupAttempt + 1 }
      if s1.setupAttempt < 5 then { s1 with retryScheduled := true } else s1
  else s

/-- `startDetection` (`part_004`, lines 977–1015): no-op when recognition is
already active; otherwise reset the wake-word flag, set up the recognition
instance if needed (bumping the attempt counter when setup fails), then try
to start it. -/
def startDetection (setupOk startOk : Bool) (s : WakeDetectionState) :
    WakeDetectionState :=
  if s.isRecognitionActive then s
  else
    let s1 := { s with wakeWordDetected := false }
    if s1.hasRecognition then startAttempt startOk s1
    else if setupOk then
      startAttempt startOk { cleanupWake s1 with hasRecognition := true }
    else
      let s2 := cleanupWake s1
      { s2 with setupAttempt := s2.setupAttempt + 1 }

/-- `stopDetection` (`part_004`, lines 1018–1026): safely stop recognition
and clear any pending restart timer. -/
def stopDetection (s : WakeDetectionState) : WakeDetectionState :=
  { s with isRecognitionActive := false, restartDelay := none }

/-- C7.  `no-speech` and `aborted` recognition errors never surface through
the `onError` callback; any surfaced error implies at least 5000 ms have
elapsed since the last error recorded by the rate limiter; and an error
arriving less than 5000 ms after the last recorded one is always dropped. -/
theorem recognition_error_policy :
    (∀ (e : String) (now : Nat) (s : WakeDetectionState),
        e = "no-speech" ∨ e = "aborted" →
        (recognitionOnError e now s).2 = none)
  ∧ (∀ (e : String) (now : Nat) (s : WakeDetectionState) (e' : String),
        (recognitionOnError e now s).2 = some e' →
        5000 ≤ now - s.lastErrorTime)
  ∧ (∀ (e : String) (now : Nat) (s : WakeDetectionState),
        now - s.lastErrorTime < 5000 →
        (recognitionOnError e now s).2 = none) := by
  refine ⟨?_, ?_, ?_⟩
  · intro e now s h
    rcases h with rfl | rfl <;>
      simp [recognitionOnError, apply_ite Prod.snd]
  · intro e now s e' h
    simp only [recognitionOnError, apply_ite Prod.snd] at h
    by_cases hc : e ≠ "aborted" ∧ now - s.lastErrorTime > 5000
    · exact Nat.le_of_lt hc.2
    · rw [if_neg hc] at h
      exact absurd h (by simp)
  · intro e now s hlt
    have hc : ¬(e ≠ "aborted" ∧ now - s.lastErrorTime > 5000) :=
      fun hco => absurd hco.2 (by omega)
    simp [recognitionOnError, apply_ite Prod.snd, hc]

/-- Witness for C7: a `no-speech` error at time 10000 surfaces nothing. -/
theorem recognition_error_policy_witness :
    (recognitionOnError "no-speech" 10000 initialWakeDetectionState).2 =
      none :=
  recognition_error_policy.1 "no-speech" 10000 initialWakeDetectionState
    (Or.inl rfl)

/-- C8.  On a benign engine termination while the monitor should still run
and no trigger has fired, `recognition.onend` schedules an auto-restart
after `backoffDelay setupAttempt`; the delay is the base 1000 ms at counter
zero, grows by the factor 3/2 per counter step, and is capped at 10000 ms;
a successful `start()` resets the counter to zero, and a failed `start()`
increments it. -/
theorem benign_end_backoff :
    (∀ (s : WakeDetectionState) (isActive : Bool),
        s.wakeWordDetected = false → isActive = true →
        (recognitionOnEnd isActive s).restartDelay =
          some (backoffDelay s.setupAttempt))
  ∧ backoffDelay 0 = 1000
  ∧ (∀ n : Nat, backoffDelay (n + 1) =
        min (backoffDelay n * (3 / 2)) 10000)
  ∧ (∀ n : Nat, backoffDelay n ≤ 10000)
  ∧ (∀ (s : WakeDetectionState) (setupOk : Bool),
        s.isRecognitionActive = false → s.hasRecognition = true →
        (startDetection setupOk true s).setupAttempt = 0 ∧
          (startDetection setupOk true s).isRecognitionActive = true)
  ∧ (∀ (s : WakeDetectionState) (setupOk : Bool),
        s.isRecognitionActive = false → s.hasRecognition = true →
        (startDetection setupOk false s).setupAttempt =
          s.setupAttempt + 1) := by
  refine ⟨?_, ?_, ?_, ?_, ?_, ?_⟩
  · intro s isActive hw ha
    simp [recognitionOnEnd, hw, ha]
  · norm_num [backoffDelay]
  · intro n
    unfold backoffDelay
    rw [pow_succ, ← mul_assoc]
    rcases le_total (1000 * (3 / 2 : ℚ) ^ n) 10000 with h | h
    · rw [min_eq_left h]
    · have h1 : (10000 : ℚ) ≤ 1000 * (3 / 2) ^ n * (3 / 2) := by
        calc (10000 : ℚ) ≤ 1000 * (3 / 2) ^ n := h
          _ ≤ 1000 * (3 / 2) ^ n * (3 / 2) :=
            le_mul_of_one_le_right (by positivity) (by norm_num)
      rw [min_eq_right h1, min_eq_right h]
      norm_num
  · intro n
    exact min_le_right _ _
  · intro s setupOk h1 h2
    constructor <;> simp [startDetection, startAttempt, h1, h2]
  · intro s setupOk h1 h2
    simp [startDetection, startAttempt, h1, h2,
      apply_ite WakeDetectionState.setupAttempt]

/-- Witness for C8: a benign termination in the initial (counter-zero)
state schedules a restart after the base delay. -/
theorem benign_end_backoff_witness :
    (recognitionOnEnd true initialWakeDetectionState).restartDelay =
      some (backoffDelay 0) :=
  benign_end_backoff.1 initialWakeDetectionState true rfl rfl

/-! ## The guarded `useRetellClient` hook (`part_005`) -/

/-- The debounced operation currently scheduled on `operationTimeoutRef`
(`part_005`, line 36).  Both `startCall` and `endCall` clear any previously
scheduled timeout before scheduling their own body, so at most one body is
ever pending. -/
inductive PendingOp where
  | startBody
  | endBody
deriving DecidableEq

/-- The mutable refs of `useRetellClient` (`part_005`, lines 29–36).
`hasClient` models `clientRef.current !== null`; `pendingOp` models the one
debounced operation scheduled on `operationTimeoutRef` (`none` when no
timeout is pending). -/
structure RetellClientState where
  hasClient : Bool
  callStartTime : Option Nat
  lastActivityTime : Option Nat
  isEndingCall : Bool
  isStartingCall : Bool
  pendingOp : Option PendingOp
deriving DecidableEq

/-- `cleanupClient` (`part_005`, lines 39–79): clear the pending operation
timeout and the inactivity timer, remove the listeners, stop the call if
one was started, drop the client, and reset every ref.  The returned `Bool`
records whether `stopCall()` was invoked on the old client. -/
def cleanupClient (s : RetellClientState) : RetellClientState × Bool :=
  ({ hasClient := false, callStartTime := none, lastActivityTime := none,
     isEndingCall := false, isStartingCall := false, pendingOp := none },
   s.hasClient && s.callStartTime.isSome)

/-- `initializeClient` (`part_005`, lines 82–90): clean up any existing
client, then create a fresh one. -/
def initializeClient (s : RetellClientState) : RetellClientState × Bool :=
  let r := cleanupClient s
  ({ r.1 with hasClient := true }, r.2)

/-- The synchronous prefix of `startCall` (`part_005`, lines 200–262): the
operation-in-progress guard, the starting flag, and the (re)scheduling of
the debounced body.  The body itself runs later (event `startBody` of the
controller model). -/
def startCallSync (s : RetellClientState) : RetellClientState :=
  if s.isStartingCall || s.isEndingCall then s
  else { s with isStartingCall := true, pendingOp := some .startBody }

/-- The synchronous prefix of `endCall` (`part_005`, lines 265–304): after
the operation-in-progress guard, a request arriving while the call is
younger than `MIN_CALL_DURATION_MS` is dropped (`return`); otherwise the
ending flag is set and the debounced end body scheduled.  JS truthiness of
`callStartTimeRef.current` makes the guard apply only when the recorded
start time is non-null and non-zero. -/
def endCallSync (now : Nat) (s : RetellClientState) : RetellClientState :=
  if s.isEndingCall || s.isStartingCall then s
  else
    match s.callStartTime with
    | some t0 =>
        if t0 ≠ 0 ∧ now - t0 < MIN_CALL_DURATION_MS then s
        else { s with isEndingCall := true, pendingOp := some .endBody }
    | none => { s with isEndingCall := true, pendingOp := some .endBody }

/-- C3.  A non-error end-call request issued while the call is younger than
the 10-second minimum duration is a complete no-op: the client state is
unchanged — in particular no ending flag is set and no end body (the only
code path that issues `stopCall` or fires `callEnded`) is scheduled, so the
session remains active. -/
theorem min_duration_guard_noop (s : RetellClientState) (now t0 : Nat)
    (hct : s.callStartTime = some t0) (ht0 : 0 < t0)
    (hlt : now - t0 < MIN_CALL_DURATION_MS) :
    endCallSync now s = s := by
  unfold endCallSync
  by_cases hf : (s.isEndingCall || s.isStartingCall) = true
  · simp [hf]
  · simp only [Bool.not_eq_true] at hf
    simp only [hf, Bool.false_eq_true, if_false, hct]
    rw [if_pos ⟨ht0.ne', hlt⟩]

/-- Witness for C3: an end request 2 s after the call opened (spec's
example) leaves the client state untouched. -/
theorem min_duration_guard_noop_witness :
    endCallSync 3000
        { hasClient := true, callStartTime := some 1000,
          lastActivityTime := some 1000, isEndingCall := false,
          isStartingCall := false, pendingOp := none } =
      { hasClient := true, callStartTime := some 1000,
        lastActivityTime := some 1000, isEndingCall := false,
        isStartingCall := false, pendingOp := none } :=
  min_duration_guard_noop _ 3000 1000 rfl (by decide) (by decide)

/-! ## The whole controller: `VoiceBot` (`part_004`) wired to the hooks

Each JS callback (button handler, timer callback, recognition callback,
client event handler, debounced operation body) is one atomic transition.
The `await` points inside the debounced `startCall` body resolve without
interleaving in the traces considered here (an under-approximation of the
scheduler: every behaviour of this model is a behaviour of the program).
React effect cleanups that stop the monitor when `isListeningForWakeWord`
flips to `false` are folded into the transition that flips the flag. -/

/-- Externally observable actions of the session transport. -/
inductive CallOutput where
  | openAttempt          -- the debounced `startCall` body ran (fetch + `startCall`)
  | stopCallIssued       -- `client.stopCall()` invoked
  | callEndedFired       -- the `onCallEnded` callback invoked
  | errorFired (msg : String)
deriving DecidableEq

/-- The complete controller state: the `VoiceBot` component state and refs
(`part_004`), the `useRetellClient` refs (`part_005`), and the
`useWakeWordDetection` refs (`part_004`). -/
structure SystemState where
  vb : VoiceBotState
  isStartingCallVB : Bool        -- `isStartingCallRef` of `part_004`, line 1072
  wakeWordDetectionEnabled : Bool
  pendingWakeStart : Bool        -- the 800 ms `setTimeout(startCall)` of `handleWakeWordDetected`
  retell : RetellClientState
  wake : WakeDetectionState
deriving DecidableEq

/-- `startWakeWordDetection` (`part_004`, lines 1119–1140). -/
def startWakeWordDetection (s : SystemState) : SystemState :=
  if s.vb.isCallActive || s.vb.isLoading then s
  else if !s.wakeWordDetectionEnabled then
    { s with
      vb := appendSystemMessage
              ("Listening for wake word: \"" ++ WAKE_WORD ++ "\"")
              { s.vb with isListeningForWakeWord := true },
      wakeWordDetectionEnabled := true }
  else { s with vb := { s.vb with isListeningForWakeWord := true } }

/-- `stopWakeWordDetection` (`part_004`, lines 1143–1146), with the
monitor-effect cleanup (`stopDetection`) folded in. -/
def stopWakeWordDetection (s : SystemState) : SystemState :=
  { s with vb := { s.vb with isListeningForWakeWord := false },
           wakeWordDetectionEnabled := false,
           wake := stopDetection s.wake }

/-- `handleWakeWordDetected` (`part_004`, lines 1081–1104): the guarded
`VoiceBot` part only — the hook has already set the trigger flag and
stopped recognition before invoking it.  On passing the guard it drops the
listening flag, appends a system note, sets the component's starting flag
and schedules `startCall` after 800 ms. -/
def handleWakeWordDetected (s : SystemState) : SystemState :=
  if s.isStartingCallVB || s.vb.isCallActive || s.vb.isLoading then s
  else
    { s with
      vb := appendSystemMessage "Wake word detected! Starting conversation..."
              { s.vb with isListeningForWakeWord := false },
      wake := stopDetection s.wake,
      isStartingCallVB := true,
      pendingWakeStart := true }

/-- `handleStartCall` (`part_004`, lines 1275–1287): guard, clear the error,
drop the listening flag, invoke `startCall` (its synchronous prefix); the
component's starting flag is set and cleared within the same synchronous
block. -/
def handleStartCall (s : SystemState) : SystemState :=
  if s.isStartingCallVB || s.vb.isCallActive || s.vb.isLoading then s
  else
    { s with
      vb := { s.vb with error := none, isListeningForWakeWord := false },
      wake := stopDetection s.wake,
      retell := startCallSync s.retell }

/-- `handleEndCall` (`part_004`, lines 1290–1293): set loading and invoke
`endCall` (its synchronous prefix). -/
def handleEndCall (now : Nat) (s : SystemState) : SystemState :=
  { s with vb := { s.vb with isLoading := true },
           retell := endCallSync now s.retell }

/-- The `onCallStarted` callback (`part_004`, lines 1161–1168). -/
def onCallStarted (s : SystemState) : SystemState :=
  { s with
    vb := { s.vb with isCallActive := true, isLoading := false,
                      callStatus := .ongoing },
    wakeWordDetectionEnabled := false }

/-- The `onCallEnded` callback (`part_004`, lines 1169–1180); its 1500 ms
cooldown timer that re-runs `startWakeWordDetection` is a separate
`listenTimer` event. -/
def onCallEnded (s : SystemState) : SystemState :=
  { s with vb := { s.vb with isCallActive := false, callStatus := .ended,
                             isLoading := false } }

/-- The `onError` callback (`part_004`, lines 1181–1193); its cooldown timer
is likewise a separate event. -/
def onCallError (msg : String) (s : SystemState) : SystemState :=
  { s with vb := { s.vb with error := some msg, callStatus := .error,
                             isCallActive := false, isLoading := false } }

/-- JS `Array.join(' ')`. -/
def joinWithSpace : List String → String
  | [] => ""
  | [t] => t
  | t :: rest => t ++ " " ++ joinWithSpace rest

/-- The `recognition.onresult` handler (`part_004`, lines 917–929) composed
with `handleWakeWordDetected`: ignore results after a detection, lower-case
and join the result batch, test substring containment of the wake word; on
a match set the trigger flag, stop recognition and invoke the component
handler.  The engine only delivers results while it is running. -/
def recognitionOnResult (results : List String) (s : SystemState) :
    SystemState :=
  if !s.wake.isRecognitionActive then s
  else if s.wake.wakeWordDetected then s
  else
    let transcript := joinWithSpace (results.map jsToLower)
    if strIncludes transcript WAKE_WORD then
      handleWakeWordDetected
        { s with wake := { s.wake with wakeWordDetected := true,
                                       isRecognitionActive := false } }
    else s

/-- Events driving the controller.  Timer firings and remote events carry
the external inputs of their callbacks (`Date.now()`, fetch success, the
recognition result batch). -/
inductive SystemEvent where
  | listenTimer                         -- boot effect / cooldown timer / "Listen" button
  | stopListenButton
  | monitorStart                        -- the monitor effect's delayed `startDetection`
  | recognitionResult (results : List String)
  | wakeTimeout                         -- the 800 ms timer of `handleWakeWordDetected`
  | startButton
  | startBody (fetchOk : Bool) (now : Nat)  -- the debounced `startCall` body
  | endButton (now : Nat)
  | endBody (stopOk : Bool)             -- the debounced `endCall` body
  | remoteCallEnded
  | remoteError (msg : String)

/-- One atomic transition of the controller; returns the new state and the
transport outputs of the step. -/
def stepEvent : SystemEvent → SystemState → SystemState × List CallOutput
  | .listenTimer, s =>
      -- the "Listen for Wake Word" button is disabled only while a call is
      -- active; the boot-effect and cooldown timers run the same handler
      if s.vb.isCallActive then (s, []) else (startWakeWordDetection s, [])
  | .stopListenButton, s =>
      if s.vb.isCallActive then (s, []) else (stopWakeWordDetection s, [])
  | .monitorStart, s =>
      -- the monitor effect starts detection 500 ms after the listening flag
      -- turns on; `setupOk`/`startOk` are true in a supporting browser
      if s.vb.isListeningForWakeWord then
        ({ s with wake := startDetection true true s.wake }, [])
      else (s, [])
  | .recognitionResult results, s => (recognitionOnResult results s, [])
  | .wakeTimeout, s =>
      -- `setTimeout(() => { startCall(); isStartingCallRef.current = false }, 800)`
      if s.pendingWakeStart then
        ({ s with pendingWakeStart := false,
                  retell := startCallSync s.retell,
                  isStartingCallVB := false }, [])
      else (s, [])
  | .startButton, s =>
      -- enabled only when idle: not active, not loading, not listening
      if s.vb.isCallActive || s.vb.isLoading || s.vb.isListeningForWakeWord
      then (s, [])
      else (handleStartCall s, [])
  | .endButton now, s =>
      if s.vb.isCallActive && !s.vb.isLoading &&
         !s.vb.isListeningForWakeWord then
        (handleEndCall now s, [])
      else (s, [])
  | .startBody fetchOk now, s =>
      if s.retell.pendingOp = some .startBody then
        -- timeout fired: onLoading(true); initializeClient; fetch;
        -- client.startCall; onCallStarted — or the catch path on failure
        let s1 := { s with retell := { s.retell with pendingOp := none },
                           vb := { s.vb with isLoading := true } }
        let init := initializeClient s1.retell
        let stops : List CallOutput :=
          if init.2 then [.stopCallIssued] else []
        let s2 := { s1 with retell := init.1 }
        if fetchOk then
          let s3 := { s2 with retell :=
            { s2.retell with callStartTime := some now,
                             lastActivityTime := some now,
                             isStartingCall := false } }
          (onCallStarted s3, .openAttempt :: stops)
        else
          let r2 := cleanupClient s2.retell
          let stops2 : List CallOutput :=
            if r2.2 then [.stopCallIssued] else []
          let s3 := onCallError "Failed to start call"
            { s2 with retell := { r2.1 with isStartingCall := false } }
          (s3, .openAttempt :: stops ++ stops2 ++
            [.errorFired "Failed to start call"])
      else (s, [])
  | .endBody stopOk, s =>
      if s.retell.pendingOp = some .endBody then
        let s1 := { s with retell := { s.retell with pendingOp := none } }
        if !s1.retell.hasClient then
          ({ s1 with retell := { s1.retell with isEndingCall := false } }, [])
        else if stopOk then
          -- `await stopCall()` succeeded; the `call_ended` event arrives later
          (s1, [.stopCallIssued])
        else
          let r2 := cleanupClient s1.retell
          let stops2 : List CallOutput :=
            if r2.2 then [.stopCallIssued] else []
          let s2 := onCallEnded (onCallError "Failed to end call"
            { s1 with retell := r2.1 })
          (s2, .stopCallIssued :: stops2 ++
            [.errorFired "Failed to end call", .callEndedFired])
      else (s, [])
  | .remoteCallEnded, s =>
      -- the `call_ended` handler (`part_005`, lines 176–188)
      if s.retell.hasClient then
        let s1 := { s with retell :=
          { s.retell with isStartingCall := false, isEndingCall := false } }
        let r2 := cleanupClient s1.retell
        let stops : List CallOutput :=
          if r2.2 then [.stopCallIssued] else []
        (onCallEnded { s1 with retell := r2.1 }, stops ++ [.callEndedFired])
      else (s, [])
  | .remoteError msg, s =>
      -- the `error` handler (`part_005`, lines 166–173)
      if s.retell.hasClient then
        (onCallError msg
          { s with retell := { s.retell with isStartingCall := false,
                                             isEndingCall := false } },
         [.errorFired msg])
      else (s, [])

/-- Run a sequence of events, collecting the outputs in order. -/
def runEvents : List SystemEvent → SystemState → SystemState × List CallOutput
  | [], s => (s, [])
  | e :: evs, s =>
      let r := stepEvent e s
      let r2 := runEvents evs r.1
      (r2.1, r.2 ++ r2.2)

/-- Number of call-open operations among the outputs. -/
def countOpens (outs : List CallOutput) : Nat :=
  countB (fun o => o == CallOutput.openAttempt) outs

/-- The controller state after mount: `initializeClient` has run, every
other ref and flag is at its initial value. -/
def initialSystemState : SystemState :=
  { vb := initialVoiceBotState
    isStartingCallVB := false
    wakeWordDetectionEnabled := false
    pendingWakeStart := false
    retell := { hasClient := true, callStartTime := none,
                lastActivityTime := none, isEndingCall := false,
                isStartingCall := false, pendingOp := none }
    wake := initialWakeDetectionState }

/-- The quiescent listening state: the boot effect enabled wake-word
detection and the monitor effect started recognition. -/
def listeningState : SystemState :=
  (runEvents [.listenTimer, .monitorStart] initialSystemState).1

/-- The events that can occur in a burst of activated signals before the
debounced open body runs: recognition results, the wake-to-call timer, and
the open body itself — no manual button press and no re-arming of the
monitor. -/
def isBurstEvent : SystemEvent → Bool
  | .recognitionResult _ => true
  | .wakeTimeout => true
  | .startBody _ _ => true
  | _ => false

/-- Potential bounding how many call-open operations a burst can still
produce: one for an armed monitor that has not yet detected the trigger,
one for a pending wake-to-call timer, one for a pending open body. -/
def openPotential (s : SystemState) : Nat :=
  (if s.wake.isRecognitionActive && !s.wake.wakeWordDetected then 1 else 0) +
  (if s.pendingWakeStart then 1 else 0) +
  (if s.retell.pendingOp = some .startBody then 1 else 0)

theorem countB_open_ite_stop (c : Prop) [Decidable c] :
    countB (fun o => o == CallOutput.openAttempt)
      (if c then [CallOutput.stopCallIssued] else []) = 0 := by
  split <;> rfl

theorem countB_open_err (msg : String) :
    countB (fun o => o == CallOutput.openAttempt)
      [CallOutput.errorFired msg] = 0 := rfl

theorem stepEvent_burst_bound (e : SystemEvent) (s : SystemState)
    (he : isBurstEvent e = true) :
    countOpens (stepEvent e s).2 + openPotential (stepEvent e s).1 ≤
      openPotential s := by
  cases e with
  | listenTimer => simp [isBurstEvent] at he
  | stopListenButton => simp [isBurstEvent] at he
  | monitorStart => simp [isBurstEvent] at he
  | startButton => simp [isBurstEvent] at he
  | endButton now => simp [isBurstEvent] at he
  | endBody stopOk => simp [isBurstEvent] at he
  | remoteCallEnded => simp [isBurstEvent] at he
  | remoteError msg => simp [isBurstEvent] at he
  | recognitionResult results =>
      simp only [stepEvent]
      rw [show countOpens [] = 0 from rfl, Nat.zero_add]
      unfold recognitionOnResult
      by_cases h1 : s.wake.isRecognitionActive = true
      · by_cases h2 : s.wake.wakeWordDetected = true
        · simp [h1, h2]
        · simp only [Bool.not_eq_true] at h2
          by_cases h3 : strIncludes
              (joinWithSpace (results.map jsToLower)) WAKE_WORD = true
          · simp only [h1, h2, h3, Bool.not_true, Bool.false_eq_true,
              if_false, if_true]
            unfold handleWakeWordDetected
            by_cases h4 : (s.isStartingCallVB || s.vb.isCallActive ||
                s.vb.isLoading) = true
            · simp only [openPotential, h1, h2, h4, if_true]
              simp
            · simp only [Bool.not_eq_true] at h4
              simp only [openPotential, h1, h2, h4, Bool.false_eq_true,
                if_false]
              simp [stopDetection]
          · simp only [Bool.not_eq_true] at h3
            simp [h1, h2, h3]
      · simp only [Bool.not_eq_true] at h1
        simp [h1]
  | wakeTimeout =>
      simp only [stepEvent]
      by_cases h1 : s.pendingWakeStart = true
      · simp only [h1, if_true]
        rw [show countOpens [] = 0 from rfl, Nat.zero_add]
        unfold startCallSync
        by_cases h2 : (s.retell.isStartingCall || s.retell.isEndingCall) =
            true
        · simp only [openPotential, h1, h2, if_true]
          simp
        · simp only [Bool.not_eq_true] at h2
          simp only [openPotential, h1, h2, Bool.false_eq_true, if_false]
          simp
      · simp only [Bool.not_eq_true] at h1
        simp [h1, countOpens, countB]
  | startBody fetchOk now =>
      simp only [stepEvent]
      by_cases h1 : s.retell.pendingOp = some .startBody
      · by_cases hf : fetchOk = true
        · simp only [h1, hf, if_true]
          simp only [countOpens, countB, countB_append, countB_open_ite_stop]
          simp [openPotential, initializeClient, cleanupClient,
            onCallStarted, h1]
          omega
        · simp only [Bool.not_eq_true] at hf
          simp only [h1, hf, Bool.false_eq_true, if_false, if_true]
          simp only [countOpens, countB, countB_append,
            countB_open_ite_stop, countB_open_err]
          simp [openPotential, initializeClient, cleanupClient, onCallError,
            h1, countB_append, countB_open_ite_stop, countB_open_err]
          omega
      · simp [h1, countOpens, countB]

theorem countOpens_le_openPotential :
    ∀ (evs : List SystemEvent) (s : SystemState),
      (∀ e ∈ evs, isBurstEvent e = true) →
      countOpens (runEvents evs s).2 + openPotential (runEvents evs s).1 ≤
        openPotential s := by
  intro evs
  induction evs with
  | nil =>
      intro s _
      simp [runEvents, countOpens, countB]
  | cons e evs ih =>
      intro s hall
      have he := hall e (List.mem_cons_self e evs)
      have htail : ∀ e' ∈ evs, isBurstEvent e' = true := fun e' h' =>
        hall e' (List.mem_cons_of_mem _ h')
      simp only [runEvents, countOpens, countB_append]
      have h1 := stepEvent_burst_bound e s he
      have h2 := ih (stepEvent e s).1 htail
      simp only [countOpens] at h1 h2
      omega

/-- C4 (amended).  Starting from the listening state, any burst of
activated signals — recognition results, wake-to-call timer firings and
debounced open bodies, with no manual start and no re-arming of the monitor
before the open completes — performs at most one call-open operation, and
the canonical completed burst performs exactly one.  (The unamended
"exactly one for every sequence of activated signals fired before
connecting completes" is refuted by
`single_open_per_burst_counterexample`.) -/
theorem single_open_per_burst :
    (∀ evs : List SystemEvent, (∀ e ∈ evs, isBurstEvent e = true) →
        countOpens (runEvents evs listeningState).2 ≤ 1)
  ∧ countOpens (runEvents
      [.recognitionResult ["hey assistant"], .wakeTimeout,
       .startBody true 1300] listeningState).2 = 1 := by
  constructor
  · intro evs hall
    have h := countOpens_le_openPotential evs listeningState hall
    have hpot : openPotential listeningState = 1 := by decide
    omega
  · decide

/-- Witness for C4's amended theorem: a burst consisting of one timer
firing performs at most one open. -/
theorem single_open_per_burst_witness :
    countOpens (runEvents [SystemEvent.wakeTimeout] listeningState).2 ≤ 1 :=
  single_open_per_burst.1 [SystemEvent.wakeTimeout] (by decide)

/-- An event that is an activated signal (a recognition result batch). -/
def isWakeSignal : SystemEvent → Bool
  | .recognitionResult _ => true
  | _ => false

/-- An event that executes the debounced call-open body. -/
def isOpenBody : SystemEvent → Bool
  | .startBody _ _ => true
  | _ => false

/-- Every activated signal of the trace precedes its first open body. -/
def allWakesBeforeFirstOpen : List SystemEvent → Bool
  | [] => true
  | e :: rest =>
      if isOpenBody e then rest.all (fun x => !isWakeSignal x)
      else allWakesBeforeFirstOpen rest

/-- The `C4` counterexample trace: wake word detected; its 800 ms timer
fires (`startCall` schedules the open body); the user presses "Listen for
Wake Word" again (enabled — no call is active yet); the monitor restarts
and hears the wake word a second time before the open body has run; the
body then runs (call connects); the second wake signal's own timer fires
after the first open completed, so `startCall`'s in-progress guard is clear
and a second open body is scheduled and runs, killing the live call. -/
def doubleOpenTrace : List SystemEvent :=
  [.recognitionResult ["hey assistant"], .wakeTimeout, .listenTimer,
   .monitorStart, .recognitionResult ["hey assistant"],
   .startBody true 1300, .wakeTimeout, .startBody true 2400]

/-- Counterexample to C4 as stated: both activated signals of
`doubleOpenTrace` fire before the first open body runs (before the
connecting phase completes), yet two call-open operations are performed. -/
theorem single_open_per_burst_counterexample :
    allWakesBeforeFirstOpen doubleOpenTrace = true ∧
    countOpens (runEvents doubleOpenTrace listeningState).2 = 2 := by
  decide

/-- C2.  The mutual-exclusion claim fails on the code: from the listening
state, after the wake word is detected, the user presses "Listen for Wake
Word" again inside the 1.3-second wake-to-connect window (the button is
enabled — no call is active and `isLoading` is still false), the monitor
effect restarts recognition, and the debounced open body then connects the
call.  The resulting state has the listening flag set, the recognition
engine running, and the call active, all at once; nothing in
`onCallStarted` clears the flag or stops the engine. -/
def raceTrace : List SystemEvent :=
  [.recognitionResult ["hey assistant"], .listenTimer, .monitorStart,
   .wakeTimeout, .startBody true 1300]

/-- C2 (violation exhibited): evaluating the controller on `raceTrace` from
the listening state yields a state where the wake-word listening flag is
set and recognition is running while the call is active. -/
theorem wake_monitor_runs_during_active_call :
    (runEvents raceTrace listeningState).1.vb.isListeningForWakeWord =
        true ∧
      (runEvents raceTrace listeningState).1.wake.isRecognitionActive =
        true ∧
      (runEvents raceTrace listeningState).1.vb.isCallActive = true := by
  decide
